import Mathlib

/-!
Verification development for the flood-risk address pipeline.

The pipeline resolves street addresses to coordinates (via a local BAG
spatial database or the Nominatim geocoding service) and samples flood-risk
rasters at the resolved coordinates.  The definitions below are a shallow
embedding of the Python sources `bag.py`, `nominatim.py`, `flooding.py` and
`cli.py`.  External geospatial libraries (pyproj transforms, raster
decoding and nearest-cell selection, the SQLite engine, the network
geocoder) are treated as abstract parameters or oracle functions, exactly
at the call boundaries the code uses; everything the repository itself
computes (string formatting, query construction, control flow, error
handling, column assembly) is modelled directly.

Character classes of the Python regular expressions are modelled over
ASCII, which covers every input the pipeline is specified for.
-/

namespace FloodRisk

/-! ## Logging model

Log calls are modelled as values so that theorems can speak about which
warnings and errors a code path emits.  Messages keep the text of the
source format strings, with interpolation replaced by concatenation. -/

inductive LogEvent where
  | error (msg : String)
  | warning (msg : String)
  | info (msg : String)
deriving DecidableEq, Repr

/-- Process exit: `some n` models `sys.exit(n)`, `none` means the function
returned normally. -/
abbrev ExitCode := Option Nat

/-! ## Python string helpers -/

/-- Model of `str.upper` (ASCII). -/
def pyUpper (s : String) : String := s.map Char.toUpper

/-- Model of `str.lower` (ASCII). -/
def pyLower (s : String) : String := s.map Char.toLower

/-- Model of the Python regex class `\d` (ASCII). -/
def isPyDigit (c : Char) : Bool := c.isDigit

/-- Model of the Python regex class `\s` (ASCII): space, tab, newline,
vertical tab, form feed, carriage return. -/
def isPySpace (c : Char) : Bool :=
  c == ' ' || c == '\t' || c == '\n' || c == '\x0b' || c == '\x0c' || c == '\r'

/-- Model of the Python regex class `\w` (ASCII): letters, digits and the
underscore. -/
def isPyWord (c : Char) : Bool := c.isAlpha || c.isDigit || c == '_'

/-!  ## The postcode regular expression

Both normalizers call `re.sub(r"(\d{4})\s*(\w{2})", repl, postcode)` with
`repl = r"\1\2"` (BAG) or `repl = r"\1 \2"` (Nominatim).  Because `\s` and
`\w` are disjoint, the backtracking search at a position succeeds exactly
when four digit characters are followed by the maximal whitespace run and
then two word characters; `matchPc6` returns the two captured groups and
the remainder of the input after the match. -/

def matchPc6 : List Char → Option (List Char × List Char × List Char)
  | d1 :: d2 :: d3 :: d4 :: rest =>
    if isPyDigit d1 && isPyDigit d2 && isPyDigit d3 && isPyDigit d4 then
      match rest.dropWhile isPySpace with
      | w1 :: w2 :: rest2 =>
        if isPyWord w1 && isPyWord w2 then
          some ([d1, d2, d3, d4], [w1, w2], rest2)
        else none
      | _ => none
    else none
  | _ => none

/-- One left-to-right pass of `re.sub` over the character list: at each
position, a match is replaced by the two groups joined by `sep` and the
scan resumes after the match, otherwise the character is kept and the scan
advances by one.  The fuel argument bounds the number of scan steps; each
step consumes at least one input character, so `l.length` is always
enough. -/
def reSubGo (sep : List Char) : Nat → List Char → List Char
  | _, [] => []
  | 0, l => l
  | n + 1, c :: cs =>
    match matchPc6 (c :: cs) with
    | some (ds, wd, rest) => ds ++ sep ++ wd ++ reSubGo sep n rest
    | none => c :: reSubGo sep n cs

def reSubPc6 (sep : List Char) (l : List Char) : List Char :=
  reSubGo sep l.length l

/-- `BAGLookup._format_pc6`: 4 digits immediately followed by the 2 word
characters. -/
def bagFormatPc6 (s : String) : String := ⟨reSubPc6 [] s.toList⟩

/-- `NominatimLookup._format_pc6`: 4 digits, one space, then the 2 word
characters. -/
def nomFormatPc6 (s : String) : String := ⟨reSubPc6 [' '] s.toList⟩

/-- True when no position of the list matches the postcode pattern. -/
def noOcc : List Char → Bool
  | [] => true
  | c :: cs => (matchPc6 (c :: cs)).isNone && noOcc cs

/-- First character of a list is a word character. -/
def headIsWord (l : List Char) : Bool :=
  match l.head? with
  | some w => isPyWord w
  | none => false

/-- After dropping leading whitespace, at least two word characters
follow.  This is the tail test of the postcode pattern. -/
def wordsAfterSpaces (l : List Char) : Bool :=
  match l.dropWhile isPySpace with
  | w1 :: w2 :: _ => isPyWord w1 && isPyWord w2
  | _ => false

/-- The pattern continuation after `4 - j` digits were already consumed:
`j` further digits, then whitespace, then two word characters.
`contMatch 4 l` is exactly the success condition of `matchPc6 l`. -/
def contMatch : Nat → List Char → Bool
  | 0, l => wordsAfterSpaces l
  | _ + 1, [] => false
  | j + 1, c :: cs => isPyDigit c && contMatch j cs

/-- Claim-side definition (from the words of the specification, for
comparison only): a whole string consisting of exactly four digits,
arbitrary internal whitespace, and two letters. -/
def isPc6Shape (s : String) : Bool :=
  match s.toList with
  | d1 :: d2 :: d3 :: d4 :: rest =>
    isPyDigit d1 && isPyDigit d2 && isPyDigit d3 && isPyDigit d4 &&
      (match rest.dropWhile isPySpace with
       | [l1, l2] => l1.isAlpha && l2.isAlpha
       | _ => false)
  | _ => false

/-! ## Address data model

A pandas row with the columns the resolvers read.  Missing cells (NaN) of
the optional columns are `none`; `other` stands for the values of every
further column of the input table, which the resolvers do not touch. -/

structure AddressRow where
  postcode : String
  house_number : String
  house_letter : Option String
  house_suffix : Option String
  other : List String
deriving DecidableEq, Repr

/-- `BAGLookup._make_upper` on an optional cell: strings are uppercased;
a NaN cell has no `upper` attribute and is left as-is. -/
def makeUpper (v : Option String) : Option String := v.map pyUpper

/-! ## BAG spatial-database resolver (`bag.py`) -/

/-- A row of the spatial index: the bounding box of a matched address. -/
structure BBox where
  minx : ℚ
  maxx : ℚ
  miny : ℚ
  maxy : ℚ
deriving DecidableEq, Repr

/-- The resolved-location record returned for a row. -/
structure GridLocation where
  longitude : ℚ
  latitude : ℚ
  amersfoort_x : ℚ
  amersfoort_y : ℚ
deriving DecidableEq, Repr

/-- The fixed SELECT of `BAGLookup._lookup_address` (whitespace of the
Python triple-quoted literal collapsed). -/
def bagBaseQuery : String :=
  "SELECT minx, maxx, miny, maxy FROM verblijfsobject vo LEFT JOIN rtree_verblijfsobject_geom rvo ON vo.feature_id = rvo.id WHERE postcode = ? AND huisnummer = ?"

/-- Query construction of `BAGLookup._lookup_address`: the letter and
suffix equality filters are appended, each with its parameter value,
exactly when `pd.notna` holds for the field, i.e. when the optional cell
is present. -/
def bagLookupQuery (a : AddressRow) : String × List String :=
  let q1 := bagBaseQuery
  let p1 : List String := [a.postcode, a.house_number]
  let q2 := match a.house_letter with
    | some _ => q1 ++ " AND UPPER(huisletter) = ?"
    | none => q1
  let p2 := match a.house_letter with
    | some hl => p1 ++ [hl]
    | none => p1
  let q3 := match a.house_suffix with
    | some _ => q2 ++ " AND UPPER(toevoeging) = ?"
    | none => q2
  let p3 := match a.house_suffix with
    | some hs => p2 ++ [hs]
    | none => p2
  (q3, p3)

/-- Occurrence of `needle` as a contiguous run somewhere in `hay`. -/
def containsSubList (needle : List Char) : List Char → Bool
  | [] => needle.isEmpty
  | c :: cs => needle.isPrefixOf (c :: cs) || containsSubList needle cs

/-- Substring test (`needle` occurs in `hay`), used to state which filters
the executed SQL predicate contains. -/
def containsSub (needle hay : String) : Bool :=
  containsSubList needle.toList hay.toList

/-- Tail of `BAGLookup._lookup_address` after the query was executed:
`fetched` is the `fetchone()` result.  On a match the bounding-box
centroid is computed, converted with the Transformer `T` (the
`EPSG:28992 -> EPSG:4326` pyproj transform, abstract here, returning
latitude and longitude in this order), and both coordinate pairs are
returned; otherwise a warning is logged and the row yields no location. -/
def bagLookupAddress (T : ℚ × ℚ → ℚ × ℚ) (fetched : Option BBox) :
    Option GridLocation × List LogEvent :=
  match fetched with
  | none => (none, [LogEvent.warning "No location found for address"])
  | some bb =>
    let loc_x := (bb.minx + bb.maxx) / 2
    let loc_y := (bb.miny + bb.maxy) / 2
    let gps := T (loc_x, loc_y)
    (some { longitude := gps.2, latitude := gps.1,
            amersfoort_x := loc_x, amersfoort_y := loc_y }, [])

/-- The per-row loop of `BAGLookup.lookup` over the fetch results of a
whole table: one output entry per input row, in order. -/
def bagBatch (T : ℚ × ℚ → ℚ × ℚ) (fetchedRows : List (Option BBox)) :
    List (Option GridLocation) :=
  fetchedRows.map (fun f => (bagLookupAddress T f).1)

/-- Column transformation of `BAGLookup.lookup` (the `assign` call):
postcode normalized, letter and suffix uppercased, everything else kept. -/
def bagAssignRow (r : AddressRow) : AddressRow :=
  { r with
    postcode := bagFormatPc6 r.postcode
    house_letter := makeUpper r.house_letter
    house_suffix := makeUpper r.house_suffix }

/-- `BAGLookup.lookup`: transform the columns, look every row up through
the database oracle `db` (mapping an executed query to its `fetchone`
result), and join the resolved locations onto the transformed table. -/
def bagLookup (T : ℚ × ℚ → ℚ × ℚ) (db : String × List String → Option BBox)
    (rows : List AddressRow) : List (AddressRow × Option GridLocation) :=
  (rows.map bagAssignRow).map
    (fun r => (r, (bagLookupAddress T (db (bagLookupQuery r))).1))

/-- Required columns of `BAGLookup.lookup`. -/
def bagRequiredColumns : List String :=
  ["postcode", "house_number", "house_letter", "house_suffix"]

/-- Required columns of `NominatimLookup.lookup`. -/
def nominatimRequiredColumns : List String :=
  ["street", "postcode", "house_number", "house_letter", "house_suffix"]

/-- Required columns of `cli.load_addresses`. -/
def cliRequiredColumns : List String :=
  ["street", "house_number", "postal_code"]

/-- The Python set difference `set(required) - set(columns)`, modelled as
the order-preserving filter of the required list. -/
def missingColumns (required cols : List String) : List String :=
  required.filter (fun c => !(cols.contains c))

/-- Missing-column check of `BAGLookup.lookup` (lines 45-48): an error is
logged and execution falls through to the lookup. -/
def bagCheckColumns (cols : List String) : List LogEvent :=
  let missing := missingColumns bagRequiredColumns cols
  if missing = [] then []
  else [LogEvent.error ("Missing address columns: " ++ String.intercalate ", " missing)]

/-- Missing-column check of `NominatimLookup.lookup` (lines 47-49): same
shape as the BAG check. -/
def nominatimCheckColumns (cols : List String) : List LogEvent :=
  let missing := missingColumns nominatimRequiredColumns cols
  if missing = [] then []
  else [LogEvent.error ("Missing address columns: " ++ String.intercalate ", " missing)]

/-- Missing-column check of `cli.load_addresses` (lines 109-113): the
error is logged and then the process exits with status 1. -/
def cliLoadAddressesCheck (cols : List String) : List LogEvent × ExitCode :=
  let missing := missingColumns cliRequiredColumns cols
  if missing = [] then ([], none)
  else ([LogEvent.error ("Missing columns in the address data: " ++ String.intercalate ", " missing)], some 1)

/-! ## Nominatim geocoding-service resolver (`nominatim.py`)

The network request is the value `response`: `Except.error` models the
geopy exception raised when the service cannot be reached (network error
or timeout), `Except.ok none` a response with no match, `Except.ok (some loc)`
a match.  `NominatimLookup._lookup_address` has no try/except around the
`geocode` call, so an exception value passes through unchanged. -/

inductive GeoError where
  | network
  | timeout
deriving DecidableEq, Repr

structure GeoLocation where
  latitude : ℚ
  longitude : ℚ
deriving DecidableEq, Repr

/-- `NominatimLookup._lookup_address` with the geocoder response made
explicit; `T` is the abstract `EPSG:4326 -> EPSG:28992` transform. -/
def nominatimLookupAddress (T : ℚ × ℚ → ℚ × ℚ)
    (response : Except GeoError (Option GeoLocation)) :
    Except GeoError (Option GridLocation × List LogEvent) :=
  match response with
  | .error e => .error e
  | .ok none => .ok (none, [LogEvent.warning "No location found for address"])
  | .ok (some loc) =>
    let xy := T (loc.latitude, loc.longitude)
    .ok (some { longitude := loc.longitude, latitude := loc.latitude,
                amersfoort_x := xy.1, amersfoort_y := xy.2 }, [])

/-- The per-row loop of `NominatimLookup.lookup` (`DataFrame.apply`): rows
are processed in order and the first uncaught exception aborts the whole
batch. -/
def nominatimBatch (T : ℚ × ℚ → ℚ × ℚ)
    (responses : List (Except GeoError (Option GeoLocation))) :
    Except GeoError (List (Option GridLocation)) :=
  responses.mapM (fun r => (nominatimLookupAddress T r).map Prod.fst)

/-! ## Risk sampling (`flooding.py` and the `cli.py` variant)

A coordinate is tagged with the reference system its numbers are expressed
in; a raster carries its native reference system and its nearest-cell
sampling function (the raster library, out of scope).  A raster file whose
`data` is `none` fails to open or decode. -/

structure TCoord where
  crs : String
  x : Int
  y : Int
deriving DecidableEq, Repr

structure Raster where
  crs : String
  sample : Int × Int → Int

structure RasterFile where
  name : String
  data : Option Raster

/-- Column naming of `RiskLookup.lookup`: `risk_file.name[:-4].lower().replace(" ", "_")`. -/
def columnName (fileName : String) : String :=
  ⟨((fileName.toList.take (fileName.toList.length - 4)).map Char.toLower).map
      (fun c => if c == ' ' then '_' else c)⟩

/-- `RiskLookup._lookup_risks`: open the raster (decode failure logs a
warning and yields no column), then sample every coordinate, passing the
coordinate numbers to the nearest-cell selection unchanged — no
reprojection happens in this variant. -/
def riskLookupLookupRisks (coords : List TCoord) (f : RasterFile) :
    Option (List Int) × List LogEvent :=
  match f.data with
  | none =>
    (none, [LogEvent.info ("Reading risk data from: " ++ f.name),
            LogEvent.warning ("Error reading risk data: " ++ f.name)])
  | some r =>
    (some (coords.map (fun c => r.sample (c.x, c.y))),
     [LogEvent.info ("Reading risk data from: " ++ f.name)])

/-- The (coordinate system, raster system) pair of every nearest-cell
selection `RiskLookup._lookup_risks` performs: the coordinates are handed
to `sel` exactly as they came in, so each sampling event pairs the
incoming coordinate reference system with the raster native one. -/
def riskLookupSampleEvents (coords : List TCoord) (r : Raster) :
    List (String × String) :=
  coords.map (fun c => (c.crs, r.crs))

/-- A pyproj point transform from `src` to `tgt` (abstract math `tf`): the
result is expressed in the target reference system. -/
def pyprojTransformPoint (tf : String → String → Int × Int → Int × Int)
    (src tgt : String) (c : TCoord) : TCoord :=
  { crs := tgt
    x := (tf src tgt (c.x, c.y)).1
    y := (tf src tgt (c.x, c.y)).2 }

/-- The coordinate list `cli.lookup_risks` actually samples: every input
GPS coordinate is first transformed from `EPSG:4326` into the raster
native system. -/
def cliLookupRisksTransformed (tf : String → String → Int × Int → Int × Int)
    (gps : List TCoord) (r : Raster) : List TCoord :=
  gps.map (pyprojTransformPoint tf "EPSG:4326" r.crs)

/-- Sampling events of `cli.lookup_risks`, after its per-raster
reprojection. -/
def cliSampleEvents (tf : String → String → Int × Int → Int × Int)
    (gps : List TCoord) (r : Raster) : List (String × String) :=
  (cliLookupRisksTransformed tf gps r).map (fun c => (c.crs, r.crs))

/-- `RiskLookup._find_risk_files`: an empty glob result logs an error and
returns the empty list; otherwise the found files are returned. -/
def riskLookupFindRiskFiles (found : List RasterFile) :
    List RasterFile × List LogEvent :=
  if found.isEmpty then
    ([], [LogEvent.info "Searching TIF files",
          LogEvent.error "No TIF files found"])
  else (found, [LogEvent.info "Searching TIF files",
                LogEvent.info "Found risk files"])

/-- `cli.find_risk_files`: an empty glob result logs an error and calls
`sys.exit(1)`. -/
def cliFindRiskFiles (found : List String) :
    List String × List LogEvent × ExitCode :=
  if found.isEmpty then
    ([], [LogEvent.info "Searching risk files",
          LogEvent.error "No risk data TIF files found"], some 1)
  else (found, [LogEvent.info "Searching risk files",
                LogEvent.info "Found risk files"], none)

/-- Insertion into the Python dict `assignments`: an existing key keeps
its position and gets the new value, a new key is appended. -/
def dictInsert (d : List (String × List Int)) (k : String) (v : List Int) :
    List (String × List Int) :=
  if d.any (fun p => p.1 == k) then
    d.map (fun p => if p.1 == k then (k, v) else p)
  else d ++ [(k, v)]

/-- The `assignments` dict built by the file loop of `RiskLookup.lookup`:
files whose lookup returned `None` contribute nothing, the others insert
their risk-score column under the derived column name. -/
def riskLookupAssignments (files : List RasterFile) (coords : List TCoord) :
    List (String × List Int) :=
  files.foldl
    (fun d f =>
      match (riskLookupLookupRisks coords f).1 with
      | none => d
      | some scores => dictInsert d (columnName f.name) scores)
    []

/-- The log stream of the file loop of `RiskLookup.lookup`, in file
order. -/
def riskLookupLoopLogs (files : List RasterFile) (coords : List TCoord) :
    List LogEvent :=
  files.foldr (fun f acc => (riskLookupLookupRisks coords f).2 ++ acc) []

/-- `RiskLookup.lookup` after the coordinate tuples were built: discover
the files, run the loop, and return the risk columns to be assigned next
to the input table, together with everything logged. -/
def riskLookupLookup (found : List RasterFile) (coords : List TCoord) :
    List (String × List Int) × List LogEvent :=
  let fl := riskLookupFindRiskFiles found
  (riskLookupAssignments fl.1 coords, fl.2 ++ riskLookupLoopLogs fl.1 coords)

/-! ## Character-class lemmas -/

theorem isPyWord_of_digit {c : Char} (h : isPyDigit c = true) : isPyWord c = true := by
  simp only [isPyWord, isPyDigit] at *
  simp [h]

theorem isPyWord_of_alpha {c : Char} (h : c.isAlpha = true) : isPyWord c = true := by
  simp only [isPyWord]
  simp [h]

theorem not_isPySpace_of_word {c : Char} (h : isPyWord c = true) : isPySpace c = false := by
  cases hs : isPySpace c with
  | false => rfl
  | true =>
    exfalso
    simp only [isPySpace, Bool.or_eq_true, beq_iff_eq] at hs
    rcases hs with ((((rfl | rfl) | rfl) | rfl) | rfl) | rfl <;> revert h <;> decide

theorem not_isPySpace_of_digit {c : Char} (h : isPyDigit c = true) : isPySpace c = false :=
  not_isPySpace_of_word (isPyWord_of_digit h)

/-! ## Lemmas about leading-whitespace removal -/

theorem dropWhile_append_spaces {sp l : List Char}
    (h : ∀ c ∈ sp, isPySpace c = true) :
    (sp ++ l).dropWhile isPySpace = l.dropWhile isPySpace := by
  induction sp with
  | nil => rfl
  | cons c cs ih =>
    have hc : isPySpace c = true := h c (by simp)
    simp [List.dropWhile_cons, hc, ih (fun x hx => h x (by simp [hx]))]

theorem forall_mem_takeWhile {p : Char → Bool} :
    ∀ {l : List Char} {a : Char}, a ∈ l.takeWhile p → p a = true := by
  intro l
  induction l with
  | nil => intro a h; simp [List.takeWhile] at h
  | cons c cs ih =>
    intro a h
    rw [List.takeWhile_cons] at h
    by_cases hc : p c = true
    · simp only [hc, if_true, List.mem_cons] at h
      rcases h with rfl | h
      · exact hc
      · exact ih h
    · simp [hc] at h

/-! ## Lemmas about the postcode pattern matcher -/

theorem matchPc6_some_decomp {l ds wd rest : List Char}
    (h : matchPc6 l = some (ds, wd, rest)) :
    ∃ d1 d2 d3 d4 sp w1 w2,
      ds = [d1, d2, d3, d4] ∧ wd = [w1, w2] ∧
      l = ds ++ sp ++ wd ++ rest ∧
      (∀ c ∈ sp, isPySpace c = true) ∧
      isPyDigit d1 = true ∧ isPyDigit d2 = true ∧
      isPyDigit d3 = true ∧ isPyDigit d4 = true ∧
      isPyWord w1 = true ∧ isPyWord w2 = true := by
  match l with
  | [] => simp [matchPc6] at h
  | [d1] => simp [matchPc6] at h
  | [d1, d2] => simp [matchPc6] at h
  | [d1, d2, d3] => simp [matchPc6] at h
  | d1 :: d2 :: d3 :: d4 :: rest0 =>
    rw [matchPc6] at h
    split at h
    case isFalse => simp at h
    case isTrue hd =>
      split at h
      case h_2 => simp at h
      case h_1 w1 w2 rest2 hdw =>
        split at h
        case isFalse => simp at h
        case isTrue hw =>
          simp only [Option.some.injEq, Prod.mk.injEq] at h
          obtain ⟨rfl, rfl, rfl⟩ := h
          simp only [Bool.and_eq_true] at hd hw
          refine ⟨d1, d2, d3, d4, rest0.takeWhile isPySpace, w1, w2, rfl, rfl, ?_,
            (fun c hc => forall_mem_takeWhile hc),
            hd.1.1.1, hd.1.1.2, hd.1.2, hd.2, hw.1, hw.2⟩
          have hr0 : rest0 = rest0.takeWhile isPySpace ++ rest0.dropWhile isPySpace :=
            (List.takeWhile_append_dropWhile isPySpace rest0).symm
          conv_lhs => rw [show (d1 :: d2 :: d3 :: d4 :: rest0 : List Char) =
            d1 :: d2 :: d3 :: d4 :: (rest0.takeWhile isPySpace ++ rest0.dropWhile isPySpace)
            from by rw [← hr0], hdw]
          simp

theorem matchPc6_of_shape {d1 d2 d3 d4 w1 w2 : Char} {sp rest : List Char}
    (h1 : isPyDigit d1 = true) (h2 : isPyDigit d2 = true)
    (h3 : isPyDigit d3 = true) (h4 : isPyDigit d4 = true)
    (hsp : ∀ c ∈ sp, isPySpace c = true)
    (hw1 : isPyWord w1 = true) (hw2 : isPyWord w2 = true) :
    matchPc6 (d1 :: d2 :: d3 :: d4 :: (sp ++ w1 :: w2 :: rest)) =
      some ([d1, d2, d3, d4], [w1, w2], rest) := by
  rw [matchPc6]
  rw [dropWhile_append_spaces hsp]
  rw [List.dropWhile_cons, not_isPySpace_of_word hw1]
  simp [h1, h2, h3, h4, hw1, hw2]

theorem matchPc6_length {l ds wd rest : List Char}
    (h : matchPc6 l = some (ds, wd, rest)) : rest.length + 6 ≤ l.length := by
  obtain ⟨d1, d2, d3, d4, sp, w1, w2, hds, hwd, hl, -, -, -, -, -, -, -⟩ :=
    matchPc6_some_decomp h
  subst hds hwd
  subst hl
  simp only [List.length_append, List.length_cons, List.length_nil]
  omega

/-! ## Lemmas about the substitution scan -/

theorem reSubGo_congr (sep : List Char) :
    ∀ (k : Nat) (l : List Char), l.length ≤ k →
      ∀ (n m : Nat), l.length ≤ n → l.length ≤ m →
        reSubGo sep n l = reSubGo sep m l := by
  intro k
  induction k with
  | zero =>
    intro l hl n m _ _
    have hnil : l = [] := List.length_eq_zero.mp (Nat.le_zero.mp hl)
    subst hnil
    cases n <;> cases m <;> rfl
  | succ k ih =>
    intro l hl n m hn hm
    cases l with
    | nil => cases n <;> cases m <;> rfl
    | cons c cs =>
      cases n with
      | zero => simp at hn
      | succ n =>
        cases m with
        | zero => simp at hm
        | succ m =>
          rw [reSubGo, reSubGo]
          cases hmt : matchPc6 (c :: cs) with
          | none =>
            simp only [hmt]
            have hcs : cs.length ≤ k := by simp at hl; omega
            rw [ih cs hcs n m (by simp at hn; omega) (by simp at hm; omega)]
          | some x =>
            obtain ⟨ds, wd, rest⟩ := x
            have hr := matchPc6_length hmt
            simp only [hmt]
            have hrk : rest.length ≤ k := by simp at hl hr; omega
            rw [ih rest hrk n m (by simp at hn hr; omega) (by simp at hm hr; omega)]

theorem reSub_nil (sep : List Char) : reSubPc6 sep [] = [] := rfl

theorem reSub_cons_match {sep ds wd rest : List Char} {c : Char} {cs : List Char}
    (h : matchPc6 (c :: cs) = some (ds, wd, rest)) :
    reSubPc6 sep (c :: cs) = ds ++ sep ++ wd ++ reSubPc6 sep rest := by
  have hr := matchPc6_length h
  unfold reSubPc6
  rw [show (c :: cs).length = cs.length + 1 from rfl]
  rw [reSubGo]
  simp only [h]
  rw [reSubGo_congr sep cs.length rest (by simp at hr; omega) cs.length rest.length
    (by simp at hr; omega) (Nat.le_refl _)]

theorem reSub_cons_none {sep : List Char} {c : Char} {cs : List Char}
    (h : matchPc6 (c :: cs) = none) :
    reSubPc6 sep (c :: cs) = c :: reSubPc6 sep cs := by
  unfold reSubPc6
  rw [show (c :: cs).length = cs.length + 1 from rfl]
  rw [reSubGo]
  simp only [h]

theorem reSub_head (sep : List Char) :
    ∀ (l : List Char), (reSubPc6 sep l).head? = l.head? := by
  intro l
  cases l with
  | nil => rfl
  | cons c cs =>
    cases hmt : matchPc6 (c :: cs) with
    | none => rw [reSub_cons_none hmt]; rfl
    | some x =>
      obtain ⟨ds, wd, rest⟩ := x
      obtain ⟨d1, d2, d3, d4, sp, w1, w2, rfl, rfl, hl, -, -, -, -, -, -, -⟩ :=
        matchPc6_some_decomp hmt
      rw [reSub_cons_match hmt]
      have hc : c = d1 := by
        have := congrArg List.head? hl
        simpa using this
      simp [hc]

theorem wordsAfterSpaces_cons_space {c : Char} {l : List Char}
    (h : isPySpace c = true) :
    wordsAfterSpaces (c :: l) = wordsAfterSpaces l := by
  simp [wordsAfterSpaces, List.dropWhile_cons, h]

theorem wordsAfterSpaces_cons_nonspace {c : Char} {l : List Char}
    (h : isPySpace c = false) :
    wordsAfterSpaces (c :: l) = (isPyWord c && headIsWord l) := by
  rw [wordsAfterSpaces, List.dropWhile_cons, h]
  cases l with
  | nil => simp [headIsWord]
  | cons w t => simp [headIsWord]

theorem wordsAfterSpaces_append_spaces {sp l : List Char}
    (h : ∀ c ∈ sp, isPySpace c = true) :
    wordsAfterSpaces (sp ++ l) = wordsAfterSpaces l := by
  rw [wordsAfterSpaces, wordsAfterSpaces, dropWhile_append_spaces h]

theorem contMatch_succ_cons (j : Nat) (c : Char) (cs : List Char) :
    contMatch (j + 1) (c :: cs) = (isPyDigit c && contMatch j cs) := rfl

theorem matchPc6_isSome (l : List Char) :
    (matchPc6 l).isSome = contMatch 4 l := by
  match l with
  | [] => rfl
  | [d1] => simp [matchPc6, contMatch]
  | [d1, d2] => simp [matchPc6, contMatch]
  | [d1, d2, d3] => simp [matchPc6, contMatch]
  | d1 :: d2 :: d3 :: d4 :: rest0 =>
    rw [matchPc6]
    simp only [contMatch_succ_cons, contMatch]
    split
    case isTrue hd =>
      simp only [Bool.and_eq_true] at hd
      rw [hd.1.1.1, hd.1.1.2, hd.1.2, hd.2]
      simp only [Bool.true_and]
      rw [wordsAfterSpaces]
      split
      case h_1 w1 w2 rest2 hdw =>
        cases hw : (isPyWord w1 && isPyWord w2) <;> simp [hw]
      case h_2 x hx => rfl
    case isFalse hd =>
      simp only [Option.isSome_none, Bool.false_eq]
      cases h1 : isPyDigit d1 <;> cases h2 : isPyDigit d2 <;>
        cases h3 : isPyDigit d3 <;> cases h4 : isPyDigit d4 <;>
        simp_all

/-- Re-scanning the Nominatim-normalized text cannot create a pattern
match at a position where the original text had none: the continuation
test is monotone backwards along the substitution. -/
theorem contMatch_reSub :
    ∀ (k : Nat) (l : List Char), l.length ≤ k → ∀ (j : Nat), j ≤ 4 →
      contMatch j (reSubPc6 [' '] l) = true → contMatch j l = true := by
  intro k
  induction k with
  | zero =>
    intro l hl j _ h
    have hnil : l = [] := List.length_eq_zero.mp (Nat.le_zero.mp hl)
    subst hnil
    exact h
  | succ k ih =>
    intro l hl j hj h
    cases l with
    | nil => exact h
    | cons c cs =>
      have hcs : cs.length ≤ k := by simp at hl; omega
      cases hmt : matchPc6 (c :: cs) with
      | none =>
        rw [reSub_cons_none hmt] at h
        cases j with
        | zero =>
          simp only [contMatch] at h ⊢
          cases hc : isPySpace c with
          | true =>
            rw [wordsAfterSpaces_cons_space hc] at h ⊢
            exact ih cs hcs 0 (by omega) h
          | false =>
            rw [wordsAfterSpaces_cons_nonspace hc] at h ⊢
            rwa [headIsWord, reSub_head, ← headIsWord] at h
        | succ j =>
          rw [contMatch_succ_cons] at h ⊢
          simp only [Bool.and_eq_true] at h ⊢
          exact ⟨h.1, ih cs hcs j (by omega) h.2⟩
      | some x =>
        obtain ⟨ds, wd, rest⟩ := x
        obtain ⟨d1, d2, d3, d4, sp, w1, w2, rfl, rfl, hl2, hsp, hd1, hd2, hd3, hd4, hw1, hw2⟩ :=
          matchPc6_some_decomp hmt
        rw [reSub_cons_match hmt] at h
        have hfl : ([d1, d2, d3, d4] ++ [' '] ++ [w1, w2] ++ reSubPc6 [' '] rest : List Char) =
            d1 :: d2 :: d3 :: d4 :: ' ' :: w1 :: w2 :: reSubPc6 [' '] rest := by simp
        rw [hfl] at h
        have hl3 : (c :: cs : List Char) =
            d1 :: d2 :: d3 :: d4 :: (sp ++ w1 :: w2 :: rest) := by
          rw [hl2]; simp
        rw [hl3]
        match j, hj with
        | 0, _ =>
          simp only [contMatch]
          rw [wordsAfterSpaces_cons_nonspace (not_isPySpace_of_digit hd1)]
          simp [headIsWord, isPyWord_of_digit hd1, isPyWord_of_digit hd2]
        | 1, _ =>
          simp only [contMatch_succ_cons, contMatch]
          rw [wordsAfterSpaces_cons_nonspace (not_isPySpace_of_digit hd2)]
          simp [headIsWord, hd1, isPyWord_of_digit hd2, isPyWord_of_digit hd3]
        | 2, _ =>
          simp only [contMatch_succ_cons, contMatch]
          rw [wordsAfterSpaces_cons_nonspace (not_isPySpace_of_digit hd3)]
          simp [headIsWord, hd1, hd2, isPyWord_of_digit hd3, isPyWord_of_digit hd4]
        | 3, _ =>
          exfalso
          simp only [contMatch_succ_cons, contMatch, Bool.and_eq_true] at h
          rw [wordsAfterSpaces_cons_nonspace (not_isPySpace_of_digit hd4)] at h
          have hh : headIsWord (' ' :: w1 :: w2 :: reSubPc6 [' '] rest) = false := by
            have he : headIsWord (' ' :: w1 :: w2 :: reSubPc6 [' '] rest) = isPyWord ' ' := rfl
            rw [he]; decide
          rw [hh] at h
          simp at h
        | 4, _ =>
          simp only [contMatch_succ_cons, contMatch, Bool.and_eq_true]
          refine ⟨hd1, hd2, hd3, hd4, ?_⟩
          rw [wordsAfterSpaces_append_spaces hsp,
            wordsAfterSpaces_cons_nonspace (not_isPySpace_of_word hw1)]
          simp [headIsWord, hw1, hw2]
        | n + 5, h5 => exact absurd h5 (by omega)

/-- If a position of the original text does not match, the same position
of the Nominatim-normalized tail does not match either. -/
theorem matchPc6_cons_reSub_none {c : Char} {l : List Char}
    (h : matchPc6 (c :: l) = none) :
    matchPc6 (c :: reSubPc6 [' '] l) = none := by
  cases hmt : matchPc6 (c :: reSubPc6 [' '] l) with
  | none => rfl
  | some x =>
    exfalso
    have h1 : (matchPc6 (c :: reSubPc6 [' '] l)).isSome = true := by rw [hmt]; rfl
    rw [matchPc6_isSome, contMatch_succ_cons] at h1
    simp only [Bool.and_eq_true] at h1
    have h2 : contMatch 3 l = true :=
      contMatch_reSub l.length l (Nat.le_refl _) 3 (by omega) h1.2
    have h3 : (matchPc6 (c :: l)).isSome = true := by
      rw [matchPc6_isSome, contMatch_succ_cons, h1.1, h2]
      rfl
    rw [h] at h3
    simp at h3

/-- Core idempotence of the Nominatim substitution pass. -/
theorem nomSub_idem :
    ∀ (k : Nat) (l : List Char), l.length ≤ k →
      reSubPc6 [' '] (reSubPc6 [' '] l) = reSubPc6 [' '] l := by
  intro k
  induction k with
  | zero =>
    intro l hl
    have hnil : l = [] := List.length_eq_zero.mp (Nat.le_zero.mp hl)
    subst hnil
    rfl
  | succ k ih =>
    intro l hl
    cases l with
    | nil => rfl
    | cons c cs =>
      cases hmt : matchPc6 (c :: cs) with
      | none =>
        rw [reSub_cons_none hmt, reSub_cons_none (matchPc6_cons_reSub_none hmt),
          ih cs (by simp at hl; omega)]
      | some x =>
        obtain ⟨ds, wd, rest⟩ := x
        have hrest : rest.length ≤ k := by
          have := matchPc6_length hmt
          simp at this hl
          omega
        obtain ⟨d1, d2, d3, d4, sp, w1, w2, rfl, rfl, hl2, hsp, hd1, hd2, hd3, hd4, hw1, hw2⟩ :=
          matchPc6_some_decomp hmt
        rw [reSub_cons_match hmt]
        have hshape : matchPc6 (d1 :: d2 :: d3 :: d4 :: ([' '] ++ w1 :: w2 :: reSubPc6 [' '] rest)) =
            some ([d1, d2, d3, d4], [w1, w2], reSubPc6 [' '] rest) :=
          matchPc6_of_shape hd1 hd2 hd3 hd4
            (by intro x hx; simp at hx; subst hx; rfl) hw1 hw2
        have hfl : ([d1, d2, d3, d4] ++ [' '] ++ [w1, w2] ++ reSubPc6 [' '] rest : List Char) =
            d1 :: d2 :: d3 :: d4 :: ([' '] ++ w1 :: w2 :: reSubPc6 [' '] rest) := by simp
        rw [hfl, reSub_cons_match hshape, ih rest hrest]
        simp

/-- Inputs of the exact postcode shape are rewritten to the canonical
form, whatever the separator of the replacement template. -/
theorem reSub_shape {sep : List Char} {d1 d2 d3 d4 w1 w2 : Char} {sp : List Char}
    (h1 : isPyDigit d1 = true) (h2 : isPyDigit d2 = true)
    (h3 : isPyDigit d3 = true) (h4 : isPyDigit d4 = true)
    (hsp : ∀ c ∈ sp, isPySpace c = true)
    (hw1 : isPyWord w1 = true) (hw2 : isPyWord w2 = true) :
    reSubPc6 sep ([d1, d2, d3, d4] ++ sp ++ [w1, w2]) =
      [d1, d2, d3, d4] ++ sep ++ [w1, w2] := by
  have hm : matchPc6 (d1 :: d2 :: d3 :: d4 :: (sp ++ w1 :: w2 :: [])) =
      some ([d1, d2, d3, d4], [w1, w2], []) :=
    matchPc6_of_shape h1 h2 h3 h4 hsp hw1 hw2
  have hl : ([d1, d2, d3, d4] ++ sp ++ [w1, w2] : List Char) =
      d1 :: d2 :: d3 :: d4 :: (sp ++ w1 :: w2 :: []) := by simp
  rw [hl, reSub_cons_match hm, reSub_nil]
  simp

/-- Text with no occurrence of the pattern is left unchanged by the
substitution. -/
theorem reSub_noOcc {sep : List Char} :
    ∀ {l : List Char}, noOcc l = true → reSubPc6 sep l = l := by
  intro l
  induction l with
  | nil => intro _; rfl
  | cons c cs ih =>
    intro h
    simp only [noOcc, Bool.and_eq_true, Option.isNone_iff_eq_none] at h
    rw [reSub_cons_none h.1, ih h.2]

/-! ## Lemmas about the risk-column assembly -/

theorem dictInsert_fresh {d : List (String × List Int)} {k : String} {v : List Int}
    (h : k ∉ d.map Prod.fst) : dictInsert d k v = d ++ [(k, v)] := by
  rw [dictInsert, if_neg]
  intro hc
  rw [List.any_eq_true] at hc
  obtain ⟨p, hp, hpk⟩ := hc
  rw [beq_iff_eq] at hpk
  exact h (hpk ▸ List.mem_map_of_mem Prod.fst hp)

theorem riskAssignments_aux (coords : List TCoord) :
    ∀ (files : List RasterFile) (d : List (String × List Int)),
      (∀ f ∈ files, f.data.isSome = true → columnName f.name ∉ d.map Prod.fst) →
      files.Pairwise (fun f g => columnName f.name ≠ columnName g.name) →
      (files.foldl
        (fun d f =>
          match (riskLookupLookupRisks coords f).1 with
          | none => d
          | some scores => dictInsert d (columnName f.name) scores) d).map Prod.fst =
      d.map Prod.fst ++
        (files.filter (fun f => f.data.isSome)).map (fun f => columnName f.name) := by
  intro files
  induction files with
  | nil => intro d _ _; simp
  | cons f fs ih =>
    intro d hfresh hpw
    rw [List.pairwise_cons] at hpw
    rw [List.foldl_cons, List.filter_cons]
    cases hd : f.data with
    | none =>
      have hres : (riskLookupLookupRisks coords f).1 = none := by
        rw [riskLookupLookupRisks, hd]
      rw [hres]
      have hfs := ih d (fun g hg => hfresh g (List.mem_cons_of_mem f hg)) hpw.2
      simp only [hd, Option.isSome_none, Bool.false_eq_true, if_false]
      exact hfs
    | some r =>
      have hk : columnName f.name ∉ d.map Prod.fst :=
        hfresh f (List.mem_cons_self f fs) (by rw [hd]; rfl)
      have hins : dictInsert d (columnName f.name) (coords.map (fun c => r.sample (c.x, c.y))) =
          d ++ [(columnName f.name, coords.map (fun c => r.sample (c.x, c.y)))] :=
        dictInsert_fresh hk
      have hfresh2 : ∀ g ∈ fs, g.data.isSome = true →
          columnName g.name ∉
            (d ++ [(columnName f.name, coords.map (fun c => r.sample (c.x, c.y)))]).map Prod.fst := by
        intro g hg hgsome
        rw [List.map_append, List.mem_append]
        rintro (hgd | hgf)
        · exact hfresh g (List.mem_cons_of_mem f hg) hgsome hgd
        · simp only [List.map_cons, List.map_nil, List.mem_singleton] at hgf
          exact hpw.1 g hg hgf.symm
      have hfs := ih _ hfresh2 hpw.2
      have hgoal : (fs.foldl
          (fun d f =>
            match (riskLookupLookupRisks coords f).1 with
            | none => d
            | some scores => dictInsert d (columnName f.name) scores)
          (dictInsert d (columnName f.name)
            (coords.map (fun c => r.sample (c.x, c.y))))).map Prod.fst =
          d.map Prod.fst ++
            (columnName f.name ::
              (fs.filter (fun f => f.data.isSome)).map (fun f => columnName f.name)) := by
        rw [hins, hfs]
        simp
      have hres : (riskLookupLookupRisks coords f).1 =
          some (coords.map (fun c => r.sample (c.x, c.y))) := by
        rw [riskLookupLookupRisks, hd]
      rw [hres]
      simp only [hd, Option.isSome_some, if_true]
      exact hgoal

theorem riskLoopLogs_mem (coords : List TCoord) :
    ∀ (files : List RasterFile) (f : RasterFile), f ∈ files → f.data = none →
      LogEvent.warning ("Error reading risk data: " ++ f.name) ∈
        riskLookupLoopLogs files coords := by
  intro files
  induction files with
  | nil => intro f h _; simp at h
  | cons g gs ih =>
    intro f hf hnone
    have hstep : riskLookupLoopLogs (g :: gs) coords =
        (riskLookupLookupRisks coords g).2 ++ riskLookupLoopLogs gs coords := rfl
    rw [hstep, List.mem_append]
    rcases List.mem_cons.mp hf with rfl | hf2
    · left
      rw [riskLookupLookupRisks, hnone]
      simp
    · right
      exact ih f hf2 hnone

/-! ## Claim theorems -/

/-- Claim C1, counterexample: `RiskLookup._lookup_risks` hands the
incoming grid coordinates to the nearest-cell selection unchanged, so a
raster whose native reference system is `EPSG:4326` is sampled with a
coordinate still expressed in `EPSG:28992` — a sampling event in a
mismatched reference system, contradicting the claim that coordinates are
never sampled against a raster in a mismatched system. -/
theorem C1_counterexample :
    riskLookupSampleEvents [{ crs := "EPSG:28992", x := 0, y := 0 }]
        { crs := "EPSG:4326", sample := fun _ => 0 } =
      [("EPSG:28992", "EPSG:4326")] ∧
    ("EPSG:28992" : String) ≠ "EPSG:4326" := by
  exact ⟨rfl, by decide⟩

/-- Claim C1 (amended): the CLI variant `cli.lookup_risks` reprojects
every coordinate from `EPSG:4326` into the raster native system before
sampling, so all of its sampling events are in the raster system; the
`RiskLookup` class variant samples the incoming coordinates unchanged, so
its sampling events are matched exactly when the incoming coordinates are
already in the raster system, and its risk scores are computed at the
untransformed points. -/
theorem C1_amended_reprojection :
    (∀ (tf : String → String → Int × Int → Int × Int) (gps : List TCoord) (r : Raster),
      (cliSampleEvents tf gps r).all (fun e => e.1 == e.2) = true) ∧
    (∀ (coords : List TCoord) (r : Raster) (fname : String),
      ((riskLookupSampleEvents coords r).all (fun e => e.1 == e.2) =
        coords.all (fun c => c.crs == r.crs)) ∧
      (riskLookupLookupRisks coords { name := fname, data := some r }).1 =
        some (coords.map (fun c => r.sample (c.x, c.y)))) := by
  constructor
  · intro tf gps r
    simp [cliSampleEvents, cliLookupRisksTransformed, pyprojTransformPoint, List.all_map,
      Function.comp]
  · intro coords r fname
    constructor
    · simp only [riskLookupSampleEvents]
      induction coords with
      | nil => rfl
      | cons c cs ih => simp only [List.map_cons, List.all_cons, ih]
    · rfl

/-- Claim C2, counterexample: `NominatimLookup._lookup_address` wraps no
try/except around the geocode call, so a network failure propagates as an
exception instead of producing the claimed not-found row, and the batch
over the remaining rows is aborted at that row. -/
theorem C2_counterexample :
    nominatimLookupAddress (fun p => p) (Except.error GeoError.network) =
      Except.error GeoError.network ∧
    nominatimLookupAddress (fun p => p) (Except.error GeoError.network) ≠
      Except.ok (none, [LogEvent.warning "No location found for address"]) ∧
    nominatimBatch (fun p => p) [Except.error GeoError.network, Except.ok none] =
      Except.error GeoError.network := by
  refine ⟨rfl, ?_, rfl⟩
  intro h
  exact Except.noConfusion h

/-- Claim C2 (amended): a geocoder response with no match is handled
per-row — the resolver returns a not-found row with a warning and the
batch continues — but a request that fails to reach the service raises,
the exception propagates out of `_lookup_address` uncaught, and a batch
aborts at the first such row. -/
theorem C2_amended_error_propagation :
    ∀ (T : ℚ × ℚ → ℚ × ℚ),
      nominatimLookupAddress T (Except.ok none) =
        Except.ok (none, [LogEvent.warning "No location found for address"]) ∧
      (∀ e, nominatimLookupAddress T (Except.error e) = Except.error e) ∧
      (∀ e rs, nominatimBatch T (Except.error e :: rs) = Except.error e) := by
  intro T
  exact ⟨rfl, fun e => rfl, fun e rs => rfl⟩

/-- Claim C3, counterexample: with zero raster files found,
`cli.find_risk_files` logs the error and then exits the process with
status 1 — the CLI pipeline does not complete. -/
theorem C3_counterexample :
    (cliFindRiskFiles []).2.2 = some 1 ∧
    LogEvent.error "No risk data TIF files found" ∈ (cliFindRiskFiles []).2.1 := by
  constructor
  · rfl
  · decide

/-- Claim C3 (amended): with zero raster files found, the `RiskLookup`
sampler logs an error and returns an empty file list, and its lookup
yields an output with no risk columns without crashing; the CLI variant
`cli.find_risk_files` instead exits the process with status 1. -/
theorem C3_amended_zero_rasters :
    ∀ (coords : List TCoord),
      riskLookupFindRiskFiles [] =
        ([], [LogEvent.info "Searching TIF files", LogEvent.error "No TIF files found"]) ∧
      (riskLookupLookup [] coords).1 = [] ∧
      (cliFindRiskFiles []).2.2 = some 1 := by
  intro coords
  exact ⟨rfl, rfl, rfl⟩

/-- Claim C4, counterexample: for an input table having only a `street`
column, `cli.load_addresses` logs the error naming the missing columns and
then calls `sys.exit(1)` — the CLI pipeline aborts on this check instead
of continuing. -/
theorem C4_counterexample :
    (cliLoadAddressesCheck ["street"]).2 = some 1 ∧
    (cliLoadAddressesCheck ["street"]).1 =
      [LogEvent.error "Missing columns in the address data: house_number, postal_code"] := by
  constructor <;> decide

/-- Claim C4 (amended): on a table missing required columns, the
`BAGLookup` and `NominatimLookup` resolvers log an error naming the
missing columns and continue; the CLI loader `cli.load_addresses` logs the
error and exits with status 1. -/
theorem C4_amended_missing_columns :
    ∀ (cols : List String),
      (missingColumns bagRequiredColumns cols ≠ [] →
        bagCheckColumns cols =
          [LogEvent.error ("Missing address columns: " ++
            String.intercalate ", " (missingColumns bagRequiredColumns cols))]) ∧
      (missingColumns nominatimRequiredColumns cols ≠ [] →
        nominatimCheckColumns cols =
          [LogEvent.error ("Missing address columns: " ++
            String.intercalate ", " (missingColumns nominatimRequiredColumns cols))]) ∧
      (missingColumns cliRequiredColumns cols ≠ [] →
        (cliLoadAddressesCheck cols).2 = some 1) := by
  intro cols
  refine ⟨fun h => ?_, fun h => ?_, fun h => ?_⟩
  · rw [bagCheckColumns, if_neg h]
  · rw [nominatimCheckColumns, if_neg h]
  · rw [cliLoadAddressesCheck, if_neg h]

/-- Claim C4 witness: the amended claim at the concrete empty column
list. -/
theorem C4_amended_missing_columns_witness :
    bagCheckColumns [] =
      [LogEvent.error
        "Missing address columns: postcode, house_number, house_letter, house_suffix"] ∧
    nominatimCheckColumns [] =
      [LogEvent.error
        "Missing address columns: street, postcode, house_number, house_letter, house_suffix"] ∧
    (cliLoadAddressesCheck []).2 = some 1 := by
  have h := C4_amended_missing_columns []
  refine ⟨?_, ?_, h.2.2 (by decide)⟩
  · rw [h.1 (by decide)]; decide
  · rw [h.2.1 (by decide)]; decide

/-- Claim C5: on a database match the resolver returns the bounding-box
centroid as grid coordinates together with the Transformer applied to
exactly that centroid; on no match the row yields no location, and the
batch over a whole table keeps one entry per row. -/
theorem C5_centroid_and_not_found :
    ∀ (T : ℚ × ℚ → ℚ × ℚ) (bb : BBox),
      (bagLookupAddress T (some bb)).1 =
        some { longitude := (T ((bb.minx + bb.maxx) / 2, (bb.miny + bb.maxy) / 2)).2
               latitude := (T ((bb.minx + bb.maxx) / 2, (bb.miny + bb.maxy) / 2)).1
               amersfoort_x := (bb.minx + bb.maxx) / 2
               amersfoort_y := (bb.miny + bb.maxy) / 2 } ∧
      (bagLookupAddress T none).1 = none ∧
      ∀ (fetchedRows : List (Option BBox)),
        (bagBatch T fetchedRows).length = fetchedRows.length := by
  intro T bb
  exact ⟨rfl, rfl, fun fetchedRows => by simp [bagBatch]⟩

/-- Claim C6: the executed predicate contains the house-letter filter
exactly when `house_letter` is present and the house-suffix filter exactly
when `house_suffix` is present, and the parameter list carries only the
present values — an absent letter or suffix contributes neither a filter
nor a parameter. -/
theorem C6_query_filters :
    ∀ (a : AddressRow),
      containsSub "huisletter" (bagLookupQuery a).1 = a.house_letter.isSome ∧
      containsSub "toevoeging" (bagLookupQuery a).1 = a.house_suffix.isSome ∧
      (bagLookupQuery a).2 =
        [a.postcode, a.house_number] ++ a.house_letter.toList ++ a.house_suffix.toList := by
  intro a
  obtain ⟨pc, hn, hl, hs, ot⟩ := a
  cases hl <;> cases hs <;>
    refine ⟨?_, ?_, ?_⟩ <;>
    simp only [bagLookupQuery, Option.toList, Option.isSome] <;>
    first
      | decide
      | simp

/-- Claim C7, counterexample: a failing raster is skipped with a warning
and the others are still sampled, but the output does not always contain
exactly one column per successfully-read raster: two raster files whose
derived column names collide (`"a b.tif"` and `"a_b.tif"` both yield
`a_b`) share a single dict key, so three files — one corrupt, two readable
— produce one risk column, not two. -/
theorem C7_counterexample :
    riskLookupAssignments
        [⟨"bad.tif", none⟩,
         ⟨"a b.tif", some ⟨"EPSG:28992", fun _ => 1⟩⟩,
         ⟨"a_b.tif", some ⟨"EPSG:28992", fun _ => 2⟩⟩]
        [⟨"EPSG:28992", 0, 0⟩] =
      [("a_b", [2])] ∧
    (([⟨"bad.tif", none⟩,
       ⟨"a b.tif", some ⟨"EPSG:28992", fun _ => 1⟩⟩,
       ⟨"a_b.tif", some ⟨"EPSG:28992", fun _ => 2⟩⟩] : List RasterFile).filter
        (fun f => f.data.isSome)).length = 2 ∧
    LogEvent.warning "Error reading risk data: bad.tif" ∈
      riskLookupLoopLogs
        [⟨"bad.tif", none⟩,
         ⟨"a b.tif", some ⟨"EPSG:28992", fun _ => 1⟩⟩,
         ⟨"a_b.tif", some ⟨"EPSG:28992", fun _ => 2⟩⟩]
        [⟨"EPSG:28992", 0, 0⟩] := by
  refine ⟨rfl, rfl, ?_⟩
  decide

/-- Claim C7 (amended): when the derived column names of the raster files
are pairwise distinct, the risk columns are exactly one column per
successfully-read raster, in file order, with no column (and no
placeholder) for a failing raster, and every failing raster leaves its
warning in the log stream; raster files whose derived names collide share
one dict key, the last one winning. -/
theorem C7_amended_per_raster :
    ∀ (files : List RasterFile) (coords : List TCoord),
      files.Pairwise (fun f g => columnName f.name ≠ columnName g.name) →
      (riskLookupAssignments files coords).map Prod.fst =
        (files.filter (fun f => f.data.isSome)).map (fun f => columnName f.name) ∧
      ∀ f ∈ files, f.data = none →
        LogEvent.warning ("Error reading risk data: " ++ f.name) ∈
          riskLookupLoopLogs files coords := by
  intro files coords hpw
  constructor
  · have h := riskAssignments_aux coords files [] (by simp) hpw
    simpa using h
  · intro f hf hn
    exact riskLoopLogs_mem coords files f hf hn

/-- Claim C7 witness: the amended claim at a concrete directory with one
corrupt raster and one readable raster. -/
theorem C7_amended_per_raster_witness :
    (riskLookupAssignments
        [⟨"bad.tif", none⟩, ⟨"ok map.tif", some ⟨"EPSG:28992", fun _ => 5⟩⟩]
        [⟨"EPSG:28992", 1, 2⟩]).map Prod.fst =
      (([⟨"bad.tif", none⟩, ⟨"ok map.tif", some ⟨"EPSG:28992", fun _ => 5⟩⟩] :
          List RasterFile).filter
        (fun f => f.data.isSome)).map (fun f => columnName f.name) := by
  refine (C7_amended_per_raster
    [⟨"bad.tif", none⟩, ⟨"ok map.tif", some ⟨"EPSG:28992", fun _ => 5⟩⟩]
    [⟨"EPSG:28992", 1, 2⟩] ?_).1
  refine List.Pairwise.cons ?_ (List.Pairwise.cons (by simp) List.Pairwise.nil)
  intro g hg
  rw [List.mem_singleton] at hg
  subst hg
  decide

/-- Claim C8, counterexample: the normalizers do not leave every input
that fails the 4-digit + 2-letter postcode shape unchanged: the regex
classes accept any word character after the digits and the substitution
also fires on proper substrings, so `"1234 56"` (digits, not letters) is
rewritten by the BAG normalizer and `"123456"` is rewritten by the
Nominatim normalizer. -/
theorem C8_counterexample :
    isPc6Shape "1234 56" = false ∧
    bagFormatPc6 "1234 56" = "123456" ∧
    "123456" ≠ "1234 56" ∧
    isPc6Shape "123456" = false ∧
    nomFormatPc6 "123456" = "1234 56" := by
  refine ⟨?_, ?_, ?_, ?_, ?_⟩ <;> decide

/-- Claim C8 (amended): an input that is exactly four digits, optional
internal whitespace and two letters is normalized to the 4 digits
immediately followed by the 2 letters on the spatial-database path, and to
the 4 digits, one space, then the 2 letters on the geocoding-service path;
an input with no occurrence of the pattern anywhere is returned unchanged
by both normalizers (and the normalizers never raise — they are total).
Inputs that merely contain an occurrence without being one, or whose two
trailing word characters are not letters, may be rewritten. -/
theorem C8_amended_normalizer :
    (∀ (d1 d2 d3 d4 : Char) (sp : List Char) (l1 l2 : Char),
      isPyDigit d1 = true → isPyDigit d2 = true →
      isPyDigit d3 = true → isPyDigit d4 = true →
      (∀ c ∈ sp, isPySpace c = true) → l1.isAlpha = true → l2.isAlpha = true →
      bagFormatPc6 ⟨[d1, d2, d3, d4] ++ sp ++ [l1, l2]⟩ = ⟨[d1, d2, d3, d4, l1, l2]⟩ ∧
      nomFormatPc6 ⟨[d1, d2, d3, d4] ++ sp ++ [l1, l2]⟩ = ⟨[d1, d2, d3, d4, ' ', l1, l2]⟩) ∧
    (∀ s : String, noOcc s.toList = true → bagFormatPc6 s = s ∧ nomFormatPc6 s = s) := by
  constructor
  · intro d1 d2 d3 d4 sp l1 l2 h1 h2 h3 h4 hsp hl1 hl2
    constructor
    · have h : reSubPc6 [] ([d1, d2, d3, d4] ++ sp ++ [l1, l2]) =
          [d1, d2, d3, d4] ++ [] ++ [l1, l2] :=
        reSub_shape h1 h2 h3 h4 hsp (isPyWord_of_alpha hl1) (isPyWord_of_alpha hl2)
      unfold bagFormatPc6
      rw [show String.toList ⟨[d1, d2, d3, d4] ++ sp ++ [l1, l2]⟩ =
        [d1, d2, d3, d4] ++ sp ++ [l1, l2] from rfl, h]
      rfl
    · have h : reSubPc6 [' '] ([d1, d2, d3, d4] ++ sp ++ [l1, l2]) =
          [d1, d2, d3, d4] ++ [' '] ++ [l1, l2] :=
        reSub_shape h1 h2 h3 h4 hsp (isPyWord_of_alpha hl1) (isPyWord_of_alpha hl2)
      unfold nomFormatPc6
      rw [show String.toList ⟨[d1, d2, d3, d4] ++ sp ++ [l1, l2]⟩ =
        [d1, d2, d3, d4] ++ sp ++ [l1, l2] from rfl, h]
      rfl
  · intro s hno
    obtain ⟨l⟩ := s
    exact ⟨congrArg String.mk (reSub_noOcc hno), congrArg String.mk (reSub_noOcc hno)⟩

/-- Claim C8 witness: the amended claim at the concrete inputs
`"1234  AB"` (postcode shape, two internal spaces) and `"HELLO!"` (no
occurrence of the pattern). -/
theorem C8_amended_normalizer_witness :
    (bagFormatPc6 ⟨['1', '2', '3', '4'] ++ [' ', ' '] ++ ['A', 'B']⟩ =
        ⟨['1', '2', '3', '4', 'A', 'B']⟩ ∧
      nomFormatPc6 ⟨['1', '2', '3', '4'] ++ [' ', ' '] ++ ['A', 'B']⟩ =
        ⟨['1', '2', '3', '4', ' ', 'A', 'B']⟩) ∧
    (bagFormatPc6 "HELLO!" = "HELLO!" ∧ nomFormatPc6 "HELLO!" = "HELLO!") := by
  constructor
  · exact C8_amended_normalizer.1 '1' '2' '3' '4' [' ', ' '] 'A' 'B'
      (by decide) (by decide) (by decide) (by decide) (by decide) (by decide) (by decide)
  · exact C8_amended_normalizer.2 "HELLO!" (by decide)

/-- Claim C9, counterexample: the spatial-database normalizer is not
idempotent.  At `"91234 56789 AB"` one pass yields `"9123456789 AB"`
(the leading `9` makes the scan skip position 0 and fuse `"1234 56"`),
and a second pass fuses the remaining space (`"9123"`/`"45"` now match at
position 0, then `"6789"`/`"AB"`), yielding `"9123456789AB"`. -/
theorem C9_counterexample :
    bagFormatPc6 "91234 56789 AB" = "9123456789 AB" ∧
    bagFormatPc6 (bagFormatPc6 "91234 56789 AB") = "9123456789AB" ∧
    bagFormatPc6 (bagFormatPc6 "91234 56789 AB") ≠ bagFormatPc6 "91234 56789 AB" := by
  refine ⟨?_, ?_, ?_⟩ <;> decide

/-- Claim C9 (amended): postcode normalization is idempotent on the
geocoding-service path — for every string `s`,
`nomFormatPc6 (nomFormatPc6 s) = nomFormatPc6 s` — but not on the
spatial-database path, where a second pass can fuse digit runs created by
the first (e.g. at `"91234 56789 AB"`). -/
theorem C9_amended_idempotence :
    ∀ (s : String), nomFormatPc6 (nomFormatPc6 s) = nomFormatPc6 s := by
  intro s
  unfold nomFormatPc6
  exact congrArg String.mk (nomSub_idem s.toList.length s.toList (Nat.le_refl _))

/-- Claim C10: the table returned by `BAGLookup.lookup` has one row per
input row, in order; its postcode column holds the normalized postcode and
its letter and suffix columns the uppercased values, in place of the raw
inputs, while the house number and every other input column are
unchanged. -/
theorem C10_frame_effect :
    ∀ (T : ℚ × ℚ → ℚ × ℚ) (db : String × List String → Option BBox)
      (rows : List AddressRow) (i : Nat),
      (bagLookup T db rows).length = rows.length ∧
      (bagLookup T db rows)[i]?.map (fun p => p.1.postcode) =
        rows[i]?.map (fun r => bagFormatPc6 r.postcode) ∧
      (bagLookup T db rows)[i]?.map (fun p => p.1.house_letter) =
        rows[i]?.map (fun r => makeUpper r.house_letter) ∧
      (bagLookup T db rows)[i]?.map (fun p => p.1.house_suffix) =
        rows[i]?.map (fun r => makeUpper r.house_suffix) ∧
      (bagLookup T db rows)[i]?.map (fun p => p.1.house_number) =
        rows[i]?.map (fun r => r.house_number) ∧
      (bagLookup T db rows)[i]?.map (fun p => p.1.other) =
        rows[i]?.map (fun r => r.other) := by
  intro T db rows i
  refine ⟨by simp [bagLookup], ?_, ?_, ?_, ?_, ?_⟩ <;>
    cases h : rows[i]? <;>
    simp [bagLookup, List.getElem?_map, h, bagAssignRow]

end FloodRisk
